import Mathlib

/-! Keypoints_Example_2: the custom logic of `main.cpp`.

A shallow embedding of the three hand-written functions of `main.cpp`
(`akazeFindGoodKeypointMatches`, `akazeFindObjectCorners`, `main`) and of the
glue function `akazeDetectComputeAndMatch`.

Conventions of the embedding.

* Finite `float` / `double` values are the rationals they denote.  For the
  match distances no rounding takes place: widening `float` to `double` is
  exact, and `3.0 * d` of a widened `float` needs at most 26 significand bits.
  Where the source produces a `float` from an `int` or from a `float` sum, the
  result is rounded to binary32 by `roundBinary32` (nearest, ties to even).
  Infinities and NaN are not represented; no operation of the program on
  finite operands produces them.
* An `int` index of `operator[]` converts to `size_t`, taken as 64 bits wide.
* `std::vector` is `List`; `operator[]` does not check its index, so every
  indexed read is explicit and an out-of-range read ends the run with a
  `Fault` that names the read and the index.
* Calls into OpenCV are fields of `Lib`; what the program makes observable
  (console output, key waits, drawing calls, windows) is a list of `Event`s.
-/

namespace Keypoints

/-- A `cv::Point2f`. -/
structure Point2f where
  x : ℚ
  y : ℚ
  deriving DecidableEq

/-- A `cv::Point` (integer pixel coordinates). -/
structure Point where
  x : Int
  y : Int
  deriving DecidableEq

/-- The field of `cv::KeyPoint` the program reads. -/
structure KeyPoint where
  pt : Point2f
  deriving DecidableEq

/-- A `cv::DMatch`. -/
structure DMatch where
  queryIdx : Int
  trainIdx : Int
  imgIdx : Int
  distance : ℚ
  deriving DecidableEq

/-- The public header fields of a `cv::Mat` and its elements. -/
structure Mat where
  rows : Int
  cols : Int
  data : List ℚ
  deriving DecidableEq

/-- The indexed reads of the program. -/
inductive Site
  | firstLoopAllMatches
  | secondLoopAllMatches
  | akazeDataMatches
  | modelKeypoints
  | sceneKeypoints
  | foundObjectCorners
  deriving DecidableEq

/-- An unchecked `operator[]` read outside the vector. -/
structure Fault where
  site : Site
  index : Int
  deriving DecidableEq

/-- What a run makes observable, in program order. -/
inductive Event
  | imread (file : String) (flags : Int)
  | print (s : String)
  | printDouble (v : ℚ)
  | getch
  | detectAndCompute (img : Mat)
  | bfMatch (query train : Mat)
  | drawMatches (modelKeypoints sceneKeypoints : List KeyPoint) (matches1to2 : List DMatch)
  | findHomography (src dst : List Point2f) (method : Int)
  | perspectiveTransform (src : List Point2f) (m : Mat)
  | line (p q : Point) (thickness : Int)
  | imshow (name : String)
  | waitKey (delay : Int)
  deriving DecidableEq

/-- The OpenCV entry points whose results the program uses. -/
structure Lib where
  /-- The result of `cv::Mat::empty()`. -/
  empty : Mat → Bool
  /-- The result of `cv::imread(file, flags)`. -/
  imread : String → Int → Mat
  /-- The keypoints and descriptors of `AKAZE::detectAndCompute`. -/
  detectAndCompute : Mat → List KeyPoint × Mat
  /-- The matches of `BFMatcher::match(query, train, matches)`. -/
  bfMatch : Mat → Mat → List DMatch
  /-- The result of `cv::findHomography(src, dst, method)`. -/
  findHomography : List Point2f → List Point2f → Int → Mat
  /-- One point of `cv::perspectiveTransform`, which maps its input pointwise. -/
  transformPoint : Mat → Point2f → Point2f
  /-- The `float` to `int` conversion of `cv::Point(cv::Point2f)`. -/
  saturateCast : ℚ → Int

/-- The header constant `CV_LOAD_IMAGE_GRAYSCALE`. -/
def CV_LOAD_IMAGE_GRAYSCALE : Int := 0

/-- The header constant `CV_RANSAC`. -/
def CV_RANSAC : Int := 8

/-- First loop of `akazeFindGoodKeypointMatches`, with `k` iterations left and
loop counter `i`: reads `allMatches[i]` and updates the running minimum and
maximum. -/
def minMaxLoop (allMatches : List DMatch) : Nat → Nat → ℚ → ℚ → Except Fault (ℚ × ℚ)
  | 0, _, minDistance, maxDistance => .ok (minDistance, maxDistance)
  | k + 1, i, minDistance, maxDistance =>
    match allMatches[i]? with
    | none => .error ⟨Site.firstLoopAllMatches, i⟩
    | some m =>
      let distance := m.distance
      let minDistance := if distance < minDistance then distance else minDistance
      let maxDistance := if distance > maxDistance then distance else maxDistance
      minMaxLoop allMatches k (i + 1) minDistance maxDistance

/-- Second loop of `akazeFindGoodKeypointMatches`, with `k` iterations left and
loop counter `i`: appends `allMatches[i]` to `goodMatches` when its distance is
below `3.0 * minDistance`. -/
def goodLoop (allMatches : List DMatch) (minDistance : ℚ) :
    Nat → Nat → List DMatch → Except Fault (List DMatch)
  | 0, _, goodMatches => .ok goodMatches
  | k + 1, i, goodMatches =>
    match allMatches[i]? with
    | none => .error ⟨Site.secondLoopAllMatches, i⟩
    | some m =>
      if m.distance < 3 * minDistance then
        goodLoop allMatches minDistance k (i + 1) (goodMatches ++ [m])
      else
        goodLoop allMatches minDistance k (i + 1) goodMatches

/-- The result of `akazeFindGoodKeypointMatches`: the returned vector, the two
values of the first loop, and the console output. -/
structure GoodMatches where
  goodMatches : List DMatch
  minDistance : ℚ
  maxDistance : ℚ
  output : List Event
  deriving DecidableEq

/-- The function `akazeFindGoodKeypointMatches`.  Both loops run `i` from `0`
while `i < matModelDescriptors.rows`. -/
def akazeFindGoodKeypointMatches (allMatches : List DMatch) (matModelDescriptors : Mat) :
    Except Fault GoodMatches :=
  match minMaxLoop allMatches matModelDescriptors.rows.toNat 0 10000 0 with
  | .error f => .error f
  | .ok (minDistance, maxDistance) =>
    match goodLoop allMatches minDistance matModelDescriptors.rows.toNat 0 [] with
    | .error f => .error f
    | .ok goodMatches =>
      .ok ⟨goodMatches, minDistance, maxDistance,
        [Event.print "minDistance = ", Event.printDouble minDistance, Event.print "\n",
         Event.print "maxDistance = ", Event.printDouble maxDistance, Event.print "\n"]⟩

/-- The data members of class `AkazeData` (the detector and matcher objects are
in `Lib`; what is drawn on `imgMatches` is in the event list).  The member
`matches` is `matches_` here, `matches` being a reserved word. -/
structure AkazeData where
  imgModel : Mat
  imgScene : Mat
  modelKeypoints : List KeyPoint
  sceneKeypoints : List KeyPoint
  matModelDescriptors : Mat
  matSceneDescriptors : Mat
  matches_ : List DMatch
  foundObjectCorners : List Point2f
  deriving DecidableEq

/-- The conversion of an `int` to `size_t`. -/
def toSizeT (i : Int) : Nat := (i % 2 ^ 64).toNat

/-- An unchecked read `v[i]` with an `int` index, which converts to `size_t`. -/
def vecAt {α : Type} (v : List α) (i : Int) : Option α :=
  v[toSizeT i]?

/-- Rounding to the nearest integer, ties to the even one. -/
def roundHalfEven (s : ℚ) : Int :=
  if s - ⌊s⌋ < 1 / 2 then ⌊s⌋
  else if 1 / 2 < s - ⌊s⌋ then ⌊s⌋ + 1
  else if ⌊s⌋ % 2 = 0 then ⌊s⌋ else ⌊s⌋ + 1

/-- The binary32 (`float`) value nearest to `q`, ties to even: `q` is rounded
to a multiple of `2 ^ (e - 23)`, where `2 ^ e <= |q| < 2 ^ (e + 1)` and `e` is
at least `-126`. -/
def roundBinary32 (q : ℚ) : ℚ :=
  if q = 0 then 0
  else roundHalfEven (q / 2 ^ (max (Int.log 2 |q|) (-126) - 23)) *
    2 ^ (max (Int.log 2 |q|) (-126) - 23)

/-- The conversion `cv::Point2f(cv::Point)`, of each coordinate from `int` to
`float`. -/
def Point.toPoint2f (p : Point) : Point2f := ⟨roundBinary32 p.x, roundBinary32 p.y⟩

/-- The constructor call `cv::Point2f(x, y)` with `int` arguments. -/
def Point2f.ofInts (x y : Int) : Point2f := ⟨roundBinary32 x, roundBinary32 y⟩

/-- The sum `a + b` of two `cv::Point2f`, each coordinate a `float` sum. -/
def Point2f.add (a b : Point2f) : Point2f :=
  ⟨roundBinary32 (a.x + b.x), roundBinary32 (a.y + b.y)⟩

/-- The conversion `cv::Point(cv::Point2f)`. -/
def Point2f.toPoint (L : Lib) (p : Point2f) : Point := ⟨L.saturateCast p.x, L.saturateCast p.y⟩

/-- The function `akazeDetectComputeAndMatch`, with the calls it makes. -/
def akazeDetectComputeAndMatch (L : Lib) (imgModel imgScene : Mat) : AkazeData × List Event :=
  let model := L.detectAndCompute imgModel
  let scene := L.detectAndCompute imgScene
  ({ imgModel := imgModel
     imgScene := imgScene
     modelKeypoints := model.1
     sceneKeypoints := scene.1
     matModelDescriptors := model.2
     matSceneDescriptors := scene.2
     matches_ := L.bfMatch model.2 scene.2
     foundObjectCorners := List.replicate 4 ⟨0, 0⟩ },
   [Event.detectAndCompute imgModel, Event.detectAndCompute imgScene,
    Event.bfMatch model.2 scene.2])

/-- The loop of `akazeFindObjectCorners`, with `k` iterations left and loop
counter `i`: appends the model and the scene point of match `i`. -/
def matchingLoop (akazeData : AkazeData) :
    Nat → Nat → List Point2f → List Point2f → Except Fault (List Point2f × List Point2f)
  | 0, _, modelMatchingKeypoints, sceneMatchingKeypoints =>
    .ok (modelMatchingKeypoints, sceneMatchingKeypoints)
  | k + 1, i, modelMatchingKeypoints, sceneMatchingKeypoints =>
    match akazeData.matches_[i]? with
    | none => .error ⟨Site.akazeDataMatches, i⟩
    | some m =>
      match vecAt akazeData.modelKeypoints m.queryIdx with
      | none => .error ⟨Site.modelKeypoints, m.queryIdx⟩
      | some kpModel =>
        match vecAt akazeData.sceneKeypoints m.trainIdx with
        | none => .error ⟨Site.sceneKeypoints, m.trainIdx⟩
        | some kpScene =>
          matchingLoop akazeData k (i + 1) (modelMatchingKeypoints ++ [kpModel.pt])
            (sceneMatchingKeypoints ++ [kpScene.pt])

/-- The vector `modelCorners` of `akazeFindObjectCorners`. -/
def modelCorners (imgModel : Mat) : List Point2f :=
  [Point.toPoint2f ⟨0, 0⟩,
   Point.toPoint2f ⟨imgModel.cols, 0⟩,
   Point.toPoint2f ⟨imgModel.cols, imgModel.rows⟩,
   Point.toPoint2f ⟨0, imgModel.rows⟩]

/-- The function `akazeFindObjectCorners`: the updated `AkazeData` and the
library calls it makes. -/
def akazeFindObjectCorners (L : Lib) (akazeData : AkazeData) :
    Except Fault (AkazeData × List Event) :=
  match matchingLoop akazeData akazeData.matches_.length 0 [] [] with
  | .error f => .error f
  | .ok (modelMatchingKeypoints, sceneMatchingKeypoints) =>
    let matHomography := L.findHomography modelMatchingKeypoints sceneMatchingKeypoints CV_RANSAC
    let corners := modelCorners akazeData.imgModel
    .ok ({ akazeData with foundObjectCorners := corners.map (L.transformPoint matHomography) },
         [Event.findHomography modelMatchingKeypoints sceneMatchingKeypoints CV_RANSAC,
          Event.perspectiveTransform corners matHomography])

/-- How a run of `main` ends. -/
inductive Status
  | returned (code : Int)
  | fault (f : Fault)
  deriving DecidableEq

/-- A run of `main`: its events in program order, how it ends, and the value of
the local `akazeData` at that point (if it has been constructed). -/
structure Run where
  events : List Event
  status : Status
  akazeData : Option AkazeData
  deriving DecidableEq

/-- The four corner points of `main`. -/
structure Corners where
  ptTopLeft : Point
  ptTopRight : Point
  ptBottomRight : Point
  ptBottomLeft : Point
  deriving DecidableEq

/-- One of the four corner definitions of `main`:
`cv::Point(akazeData.foundObjectCorners[i] + cv::Point2f(imgModel.cols, 0))`. -/
def cornerPoint (L : Lib) (akazeData : AkazeData) (imgModel : Mat) (i : Nat) :
    Except Fault Point :=
  match akazeData.foundObjectCorners[i]? with
  | none => .error ⟨Site.foundObjectCorners, i⟩
  | some c => .ok (Point2f.toPoint L (Point2f.add c (Point2f.ofInts imgModel.cols 0)))

/-- The corner definitions of `main`, in source order. -/
def foundCorners (L : Lib) (akazeData : AkazeData) (imgModel : Mat) : Except Fault Corners :=
  match cornerPoint L akazeData imgModel 0 with
  | .error f => .error f
  | .ok ptTopLeft =>
    match cornerPoint L akazeData imgModel 1 with
    | .error f => .error f
    | .ok ptTopRight =>
      match cornerPoint L akazeData imgModel 2 with
      | .error f => .error f
      | .ok ptBottomRight =>
        match cornerPoint L akazeData imgModel 3 with
        | .error f => .error f
        | .ok ptBottomLeft => .ok ⟨ptTopLeft, ptTopRight, ptBottomRight, ptBottomLeft⟩

/-- The four `cv::line` calls of `main`, in source order. -/
def drawLines (c : Corners) : List Event :=
  [Event.line c.ptTopLeft c.ptTopRight 3,
   Event.line c.ptTopRight c.ptBottomRight 3,
   Event.line c.ptBottomRight c.ptBottomLeft 3,
   Event.line c.ptBottomLeft c.ptTopLeft 3]

/-- The part of `main` after both images have been read. -/
def pipeline (L : Lib) (imgModel imgScene : Mat) : Run :=
  let detected := akazeDetectComputeAndMatch L imgModel imgScene
  let akazeData := detected.1
  match akazeFindGoodKeypointMatches akazeData.matches_ akazeData.matModelDescriptors with
  | .error f => ⟨detected.2, Status.fault f, some akazeData⟩
  | .ok good =>
    let akazeData := { akazeData with matches_ := good.goodMatches }
    let drawn := [Event.drawMatches akazeData.modelKeypoints akazeData.sceneKeypoints
      akazeData.matches_]
    match akazeFindObjectCorners L akazeData with
    | .error f => ⟨detected.2 ++ good.output ++ drawn, Status.fault f, some akazeData⟩
    | .ok (akazeData, calls) =>
      match foundCorners L akazeData imgModel with
      | .error f =>
        ⟨detected.2 ++ good.output ++ drawn ++ calls, Status.fault f, some akazeData⟩
      | .ok c =>
        ⟨detected.2 ++ good.output ++ drawn ++ calls ++ drawLines c ++
           [Event.imshow "imgMatches", Event.waitKey 0],
         Status.returned 0, some akazeData⟩

/-- The function `main`. -/
def main (L : Lib) : Run :=
  let imgModel := L.imread "model_1.png" CV_LOAD_IMAGE_GRAYSCALE
  if L.empty imgModel then
    ⟨[Event.imread "model_1.png" CV_LOAD_IMAGE_GRAYSCALE,
      Event.print "error: model image not read from file\n\n", Event.getch],
     Status.returned 0, none⟩
  else
    let imgScene := L.imread "scene_1.png" CV_LOAD_IMAGE_GRAYSCALE
    if L.empty imgScene then
      ⟨[Event.imread "model_1.png" CV_LOAD_IMAGE_GRAYSCALE,
        Event.imread "scene_1.png" CV_LOAD_IMAGE_GRAYSCALE,
        Event.print "error: scene image not read from file\n\n", Event.getch],
       Status.returned 0, none⟩
    else
      let run := pipeline L imgModel imgScene
      ⟨[Event.imread "model_1.png" CV_LOAD_IMAGE_GRAYSCALE,
        Event.imread "scene_1.png" CV_LOAD_IMAGE_GRAYSCALE] ++ run.events,
       run.status, run.akazeData⟩

/-- The console output of `akazeFindGoodKeypointMatches` for two values. -/
def minMaxOutput (minDistance maxDistance : ℚ) : List Event :=
  [Event.print "minDistance = ", Event.printDouble minDistance, Event.print "\n",
   Event.print "maxDistance = ", Event.printDouble maxDistance, Event.print "\n"]

/-- Four matches used to instantiate the theorems. -/
def sampleMatches : List DMatch :=
  [⟨0, 0, 0, 10⟩, ⟨1, 1, 0, 30⟩, ⟨2, 2, 0, 29⟩, ⟨3, 0, 0, 5⟩]

/-- The model point of a match, `⟨0, 0⟩` when its `queryIdx` is out of range. -/
def modelPt (akazeData : AkazeData) (m : DMatch) : Point2f :=
  match vecAt akazeData.modelKeypoints m.queryIdx with
  | some kp => kp.pt
  | none => ⟨0, 0⟩

/-- The scene point of a match, `⟨0, 0⟩` when its `trainIdx` is out of range. -/
def scenePt (akazeData : AkazeData) (m : DMatch) : Point2f :=
  match vecAt akazeData.sceneKeypoints m.trainIdx with
  | some kp => kp.pt
  | none => ⟨0, 0⟩

/-- A library stub used to instantiate the theorems: images are empty when they
have no elements, both images yield two keypoints, the homography is a
translation by `(5, 7)`, and conversion to `int` takes the floor. -/
def sampleLib : Lib where
  empty := fun m => m.data.isEmpty
  imread := fun file _ => if file = "model_1.png" then ⟨2, 3, [1, 2, 3, 4, 5, 6]⟩ else ⟨4, 4, [0]⟩
  detectAndCompute := fun _ => ([⟨⟨0, 0⟩⟩, ⟨⟨1, 1⟩⟩], ⟨2, 61, [0]⟩)
  bfMatch := fun _ _ => [⟨0, 0, 0, 10⟩, ⟨1, 1, 0, 40⟩]
  findHomography := fun _ _ _ => ⟨3, 3, [1, 0, 5, 0, 1, 7, 0, 0, 1]⟩
  transformPoint := fun _ p => ⟨p.x + 5, p.y + 7⟩
  saturateCast := fun q => ⌊q⌋

/-- An `AkazeData` with two keypoints per image and two matches between them. -/
def sampleData : AkazeData where
  imgModel := ⟨2, 3, [1, 2, 3, 4, 5, 6]⟩
  imgScene := ⟨4, 4, [0]⟩
  modelKeypoints := [⟨⟨0, 0⟩⟩, ⟨⟨1, 1⟩⟩]
  sceneKeypoints := [⟨⟨5, 7⟩⟩, ⟨⟨6, 8⟩⟩]
  matModelDescriptors := ⟨2, 61, [0]⟩
  matSceneDescriptors := ⟨2, 61, [0]⟩
  matches_ := [⟨1, 0, 0, 10⟩, ⟨0, 1, 0, 12⟩]
  foundObjectCorners := List.replicate 4 ⟨0, 0⟩

/-- A library stub whose model image is empty. -/
def noModelLib : Lib :=
  { sampleLib with imread := fun _ _ => ⟨0, 0, []⟩ }

/-- A library stub whose scene image is empty. -/
def noSceneLib : Lib :=
  { sampleLib with
    imread := fun file _ => if file = "model_1.png" then ⟨2, 3, [1, 2, 3, 4, 5, 6]⟩ else ⟨0, 0, []⟩ }

/-- Whether an event belongs to detection, matching, filtering, homography,
drawing or display, that is, to anything but reading an image, printing a text
and waiting for a key. -/
def Event.isPipeline : Event → Bool
  | .imread _ _ => false
  | .print _ => false
  | .getch => false
  | _ => true

/-- The end points of a `cv::line` call. -/
def Event.segment : Event → Option (Point × Point)
  | .line p q _ => some (p, q)
  | _ => none

/-- The line segments drawn by a run, in drawing order. -/
def segments (events : List Event) : List (Point × Point) :=
  events.filterMap Event.segment

/-- The four corners of the found object. -/
inductive Corner
  | topLeft
  | topRight
  | bottomRight
  | bottomLeft
  deriving DecidableEq

/-- The point that `main` computes for a corner. -/
def Corners.point (c : Corners) : Corner → Point
  | .topLeft => c.ptTopLeft
  | .topRight => c.ptTopRight
  | .bottomRight => c.ptBottomRight
  | .bottomLeft => c.ptBottomLeft

/-- The closed path top-left, top-right, bottom-right, bottom-left, top-left. -/
def quadrilateral : List (Corner × Corner) :=
  [(.topLeft, .topRight), (.topRight, .bottomRight), (.bottomRight, .bottomLeft),
   (.bottomLeft, .topLeft)]

/-- The value of `akazeData` at the end of `main` on `sampleLib`. -/
def sampleFinalData : AkazeData where
  imgModel := ⟨2, 3, [1, 2, 3, 4, 5, 6]⟩
  imgScene := ⟨4, 4, [0]⟩
  modelKeypoints := [⟨⟨0, 0⟩⟩, ⟨⟨1, 1⟩⟩]
  sceneKeypoints := [⟨⟨0, 0⟩⟩, ⟨⟨1, 1⟩⟩]
  matModelDescriptors := ⟨2, 61, [0]⟩
  matSceneDescriptors := ⟨2, 61, [0]⟩
  matches_ := [⟨0, 0, 0, 10⟩]
  foundObjectCorners := [⟨5, 7⟩, ⟨8, 7⟩, ⟨8, 9⟩, ⟨5, 9⟩]

/-! ## The two loops of `akazeFindGoodKeypointMatches` -/

/-- The running minimum of the first loop over a list of matches. -/
def runMin (a : ℚ) (l : List DMatch) : ℚ :=
  l.foldl (fun acc m => if m.distance < acc then m.distance else acc) a

/-- The running maximum of the first loop over a list of matches. -/
def runMax (b : ℚ) (l : List DMatch) : ℚ :=
  l.foldl (fun acc m => if m.distance > acc then m.distance else acc) b

theorem drop_take_succ (l : List DMatch) (i k : Nat) (h : i < l.length) :
    (l.drop i).take (k + 1) = l[i] :: (l.drop (i + 1)).take k := by
  rw [List.drop_eq_getElem_cons h, List.take_succ_cons]

theorem minMaxLoop_ok (allMatches : List DMatch) :
    ∀ (k i : Nat) (a b : ℚ), i + k ≤ allMatches.length →
      minMaxLoop allMatches k i a b =
        .ok (runMin a ((allMatches.drop i).take k), runMax b ((allMatches.drop i).take k)) := by
  intro k
  induction k with
  | zero => intro i a b _; simp [minMaxLoop, runMin, runMax]
  | succ k ih =>
    intro i a b h
    have hi : i < allMatches.length := by omega
    rw [minMaxLoop, List.getElem?_eq_getElem hi]
    simp only []
    rw [ih (i + 1) _ _ (by omega), drop_take_succ allMatches i k hi]
    simp [runMin, runMax]

theorem minMaxLoop_fault (allMatches : List DMatch) :
    ∀ (k i : Nat) (a b : ℚ), i ≤ allMatches.length → allMatches.length < i + k →
      minMaxLoop allMatches k i a b =
        .error ⟨Site.firstLoopAllMatches, allMatches.length⟩ := by
  intro k
  induction k with
  | zero => intro i a b h1 h2; omega
  | succ k ih =>
    intro i a b h1 h2
    rcases Nat.lt_or_ge i allMatches.length with hi | hi
    · rw [minMaxLoop, List.getElem?_eq_getElem hi]
      simp only []
      exact ih (i + 1) _ _ (by omega) (by omega)
    · have hi2 : i = allMatches.length := by omega
      rw [minMaxLoop, List.getElem?_eq_none (by omega)]
      simp [hi2]

theorem goodLoop_ok (allMatches : List DMatch) (minDistance : ℚ) :
    ∀ (k i : Nat) (acc : List DMatch), i + k ≤ allMatches.length →
      goodLoop allMatches minDistance k i acc =
        .ok (acc ++ ((allMatches.drop i).take k).filter
          (fun m => decide (m.distance < 3 * minDistance))) := by
  intro k
  induction k with
  | zero => intro i acc _; simp [goodLoop]
  | succ k ih =>
    intro i acc h
    have hi : i < allMatches.length := by omega
    rw [goodLoop, List.getElem?_eq_getElem hi]
    simp only []
    rw [drop_take_succ allMatches i k hi]
    by_cases hd : allMatches[i].distance < 3 * minDistance
    · rw [if_pos hd, ih (i + 1) _ (by omega)]
      simp [List.filter_cons, hd]
    · rw [if_neg hd, ih (i + 1) _ (by omega)]
      simp [List.filter_cons, hd]

theorem rows_toNat_le (allMatches : List DMatch) (mat : Mat)
    (h : mat.rows ≤ allMatches.length) : 0 + mat.rows.toNat ≤ allMatches.length := by
  omega

theorem akazeFindGoodKeypointMatches_ok (allMatches : List DMatch) (mat : Mat)
    (h : mat.rows ≤ allMatches.length) :
    akazeFindGoodKeypointMatches allMatches mat =
      .ok ⟨(allMatches.take mat.rows.toNat).filter
            (fun m => decide (m.distance < 3 * runMin 10000 (allMatches.take mat.rows.toNat))),
          runMin 10000 (allMatches.take mat.rows.toNat),
          runMax 0 (allMatches.take mat.rows.toNat),
          minMaxOutput (runMin 10000 (allMatches.take mat.rows.toNat))
            (runMax 0 (allMatches.take mat.rows.toNat))⟩ := by
  have hn := rows_toNat_le allMatches mat h
  simp only [akazeFindGoodKeypointMatches]
  rw [minMaxLoop_ok allMatches _ 0 _ _ hn]
  simp only []
  rw [goodLoop_ok allMatches _ _ 0 _ hn]
  simp [minMaxOutput]

theorem akazeFindGoodKeypointMatches_fault (allMatches : List DMatch) (mat : Mat)
    (h : (allMatches.length : Int) < mat.rows) :
    akazeFindGoodKeypointMatches allMatches mat =
      .error ⟨Site.firstLoopAllMatches, allMatches.length⟩ := by
  simp only [akazeFindGoodKeypointMatches]
  rw [minMaxLoop_fault allMatches _ 0 _ _ (by omega) (by omega)]

/-! ## Claims about `akazeFindGoodKeypointMatches` -/

/-- C1: for every match list and every `rows` with `rows <= allMatches.size()`,
the first pass yields a value `minDistance` and the function returns exactly the
matches of `allMatches[0..rows-1]` with distance strictly below
`3.0 * minDistance`, in their order: the result is that filtered list, hence a
sublist of the prefix (nothing added, duplicated, reordered or altered), and a
match at distance `3.0 * minDistance` is not returned. -/
theorem akazeFindGoodKeypointMatches_threshold_filter (allMatches : List DMatch) (mat : Mat)
    (h : mat.rows ≤ allMatches.length) :
    ∃ r minD maxD,
      minMaxLoop allMatches mat.rows.toNat 0 10000 0 = .ok (minD, maxD) ∧
      akazeFindGoodKeypointMatches allMatches mat = .ok r ∧
      r.minDistance = minD ∧
      r.goodMatches = (allMatches.take mat.rows.toNat).filter
        (fun m => decide (m.distance < 3 * minD)) ∧
      List.Sublist r.goodMatches (allMatches.take mat.rows.toNat) ∧
      (∀ m, m ∈ r.goodMatches ↔
        m ∈ allMatches.take mat.rows.toNat ∧ m.distance < 3 * minD) ∧
      (∀ m ∈ allMatches.take mat.rows.toNat, m.distance = 3 * minD → m ∉ r.goodMatches) := by
  refine ⟨_, runMin 10000 (allMatches.take mat.rows.toNat),
    runMax 0 (allMatches.take mat.rows.toNat), ?_,
    akazeFindGoodKeypointMatches_ok allMatches mat h, rfl, rfl, ?_, ?_, ?_⟩
  · rw [minMaxLoop_ok allMatches _ 0 _ _ (rows_toNat_le allMatches mat h)]
    simp
  · exact List.filter_sublist _
  · intro m
    simp [List.mem_filter]
  · intro m _ hm
    simp [List.mem_filter, hm]

/-- C1 at `sampleMatches` with `rows = 3`: the first loop yields `10`, the
matches at distance `10` and `29` are returned in their order, the match at
distance `30 = 3 * 10` is not, and the fourth match is not looked at. -/
theorem akazeFindGoodKeypointMatches_threshold_filter_witness :
    ∃ r, akazeFindGoodKeypointMatches sampleMatches ⟨3, 61, []⟩ = .ok r ∧
      r.minDistance = 10 ∧
      r.goodMatches = [⟨0, 0, 0, 10⟩, ⟨2, 2, 0, 29⟩] := by
  obtain ⟨r, minD, maxD, hloop, hr, hmin, hgood, _⟩ :=
    akazeFindGoodKeypointMatches_threshold_filter sampleMatches ⟨3, 61, []⟩ (by decide)
  have hten : minD = 10 := by
    norm_num [minMaxLoop, sampleMatches] at hloop
    exact hloop.1.symm
  subst hten
  refine ⟨r, hr, hmin, ?_⟩
  rw [hgood]
  norm_num [sampleMatches, List.filter]

/-- C8: every read `allMatches[i]` of `akazeFindGoodKeypointMatches` is in range,
and the function returns, exactly when `rows <= allMatches.size()`; in that case
the result is the one obtained from `allMatches[0..rows-1]` followed by any other
matches; and when `rows > allMatches.size()` the first loop reads the
out-of-range index `allMatches.size()`. -/
theorem akazeFindGoodKeypointMatches_index_safety (allMatches : List DMatch) (mat : Mat) :
    ((∃ r, akazeFindGoodKeypointMatches allMatches mat = .ok r) ↔
      mat.rows ≤ allMatches.length) ∧
    (mat.rows ≤ allMatches.length → ∀ others : List DMatch,
      akazeFindGoodKeypointMatches (allMatches.take mat.rows.toNat ++ others) mat =
        akazeFindGoodKeypointMatches allMatches mat) ∧
    ((allMatches.length : Int) < mat.rows →
      akazeFindGoodKeypointMatches allMatches mat =
        .error ⟨Site.firstLoopAllMatches, allMatches.length⟩) := by
  refine ⟨⟨?_, fun h => ⟨_, akazeFindGoodKeypointMatches_ok allMatches mat h⟩⟩, ?_,
    akazeFindGoodKeypointMatches_fault allMatches mat⟩
  · rintro ⟨r, hr⟩
    by_contra hlt
    rw [akazeFindGoodKeypointMatches_fault allMatches mat (by omega)] at hr
    cases hr
  · intro h others
    have hlen : (allMatches.take mat.rows.toNat).length = mat.rows.toNat := by
      rw [List.length_take]; omega
    have h2 : mat.rows ≤ ((allMatches.take mat.rows.toNat ++ others).length : Int) := by
      rw [List.length_append, hlen]; omega
    rw [akazeFindGoodKeypointMatches_ok allMatches mat h,
      akazeFindGoodKeypointMatches_ok _ mat h2]
    have h3 : (allMatches.take mat.rows.toNat ++ others).take mat.rows.toNat =
        allMatches.take mat.rows.toNat := by
      rw [List.take_append_of_le_length (by omega), List.take_take]
      simp
    rw [h3]

/-- The instances of C8 at `sampleMatches`: with `rows = 3` the tail of the
list is irrelevant, with `rows = 5` index `4` is read out of range. -/
theorem akazeFindGoodKeypointMatches_index_safety_witness :
    (∀ others : List DMatch,
      akazeFindGoodKeypointMatches (sampleMatches.take (3 : Int).toNat ++ others) ⟨3, 61, []⟩ =
        akazeFindGoodKeypointMatches sampleMatches ⟨3, 61, []⟩) ∧
    akazeFindGoodKeypointMatches sampleMatches ⟨5, 61, []⟩ =
      .error ⟨Site.firstLoopAllMatches, sampleMatches.length⟩ :=
  ⟨(akazeFindGoodKeypointMatches_index_safety sampleMatches ⟨3, 61, []⟩).2.1 (by decide),
   (akazeFindGoodKeypointMatches_index_safety sampleMatches ⟨5, 61, []⟩).2.2 (by decide)⟩

/-! ## Rounding to binary32 -/

theorem roundHalfEven_intCast (n : Int) : roundHalfEven (n : ℚ) = n := by
  simp [roundHalfEven]

theorem roundBinary32_zero : roundBinary32 0 = 0 := by
  simp [roundBinary32]

theorem roundBinary32_of_exponent (q : ℚ) (e : Int) (h1 : 2 ^ e ≤ |q|)
    (h2 : |q| < 2 ^ (e + 1)) :
    roundBinary32 q =
      roundHalfEven (q / 2 ^ (max e (-126) - 23)) * 2 ^ (max e (-126) - 23) := by
  have hpos : (0 : ℚ) < |q| := lt_of_lt_of_le (by positivity) h1
  have hq : q ≠ 0 := abs_pos.mp hpos
  have hlog : Int.log 2 |q| = e := by
    have ha : e ≤ Int.log 2 |q| :=
      (Int.zpow_le_iff_le_log (by norm_num) hpos).mp (by exact_mod_cast h1)
    have hb : Int.log 2 |q| < e + 1 :=
      (Int.lt_zpow_iff_log_lt (by norm_num) hpos).mp (by exact_mod_cast h2)
    omega
  simp [roundBinary32, hq, hlog]

theorem roundBinary32_fixed (m k : Int) (hm : |m| < 2 ^ 24) (hk : -149 ≤ k) :
    roundBinary32 ((m : ℚ) * 2 ^ k) = m * 2 ^ k := by
  by_cases hm0 : m = 0
  · simp [roundBinary32, hm0]
  have hq : (m : ℚ) * 2 ^ k ≠ 0 := by
    have : (m : ℚ) ≠ 0 := by exact_mod_cast hm0
    positivity
  have hpos : (0 : ℚ) < |(m : ℚ) * 2 ^ k| := abs_pos.mpr hq
  have hlt : |(m : ℚ) * 2 ^ k| < ((2 : ℕ) : ℚ) ^ (24 + k) := by
    rw [abs_mul, abs_of_pos (show (0 : ℚ) < 2 ^ k by positivity), Nat.cast_ofNat,
      zpow_add₀ (by norm_num : (2 : ℚ) ≠ 0)]
    have h24 : |(m : ℚ)| < 2 ^ (24 : ℤ) := by
      have h := (Int.cast_lt (R := ℚ)).mpr hm
      push_cast at h
      norm_num at h ⊢
      exact h
    exact mul_lt_mul_of_pos_right h24 (by positivity)
  have hlog : Int.log 2 |(m : ℚ) * 2 ^ k| < 24 + k :=
    (Int.lt_zpow_iff_log_lt (by norm_num) hpos).mp hlt
  obtain ⟨j, hj⟩ : ∃ j : ℕ, k = (max (Int.log 2 |(m : ℚ) * 2 ^ k|) (-126) - 23) + j :=
    ⟨(k - (max (Int.log 2 |(m : ℚ) * 2 ^ k|) (-126) - 23)).toNat, by omega⟩
  rw [roundBinary32, if_neg hq]
  generalize (max (Int.log 2 |(m : ℚ) * 2 ^ k|) (-126) - 23) = e at hj ⊢
  have h2 : (2 : ℚ) ^ e ≠ 0 := by positivity
  have hk2 : (2 : ℚ) ^ k = 2 ^ e * 2 ^ j := by
    rw [hj, zpow_add₀ (by norm_num : (2 : ℚ) ≠ 0), zpow_natCast]
  have hval : (m : ℚ) * 2 ^ k / 2 ^ e = ((m * 2 ^ j : Int) : ℚ) := by
    rw [hk2]
    field_simp
    ring
  rw [hval, roundHalfEven_intCast, hk2]
  push_cast
  ring

theorem roundBinary32_intCast (n : Int) (h : |n| ≤ 2 ^ 24) : roundBinary32 (n : ℚ) = n := by
  rcases lt_or_eq_of_le h with hlt | heq
  · simpa using roundBinary32_fixed n 0 hlt (by norm_num)
  · rcases abs_eq (by norm_num : (0 : Int) ≤ 2 ^ 24) |>.mp heq with h1 | h1
    · subst h1
      have := roundBinary32_fixed (2 ^ 23) 1 (by norm_num) (by norm_num)
      norm_num at this ⊢
      exact this
    · subst h1
      have := roundBinary32_fixed (-2 ^ 23) 1 (by norm_num) (by norm_num)
      norm_num at this ⊢
      exact this

theorem roundBinary32_small :
    roundBinary32 2 = 2 ∧ roundBinary32 3 = 3 ∧ roundBinary32 7 = 7 ∧ roundBinary32 8 = 8 ∧
    roundBinary32 9 = 9 ∧ roundBinary32 11 = 11 := by
  refine ⟨?_, ?_, ?_, ?_, ?_, ?_⟩
  · simpa using roundBinary32_intCast 2 (by norm_num)
  · simpa using roundBinary32_intCast 3 (by norm_num)
  · simpa using roundBinary32_intCast 7 (by norm_num)
  · simpa using roundBinary32_intCast 8 (by norm_num)
  · simpa using roundBinary32_intCast 9 (by norm_num)
  · simpa using roundBinary32_intCast 11 (by norm_num)

/-- The conversion of `16777217` to `float` yields `16777216`. -/
theorem roundBinary32_above_range : roundBinary32 16777217 = 16777216 := by
  rw [roundBinary32_of_exponent 16777217 24 (by norm_num) (by norm_num)]
  have hfloor : ⌊(16777217 / 2 : ℚ)⌋ = 8388608 := by
    rw [Int.floor_eq_iff]; norm_num
  norm_num [roundHalfEven, hfloor]

theorem vecAt_of_range {α : Type} (v : List α) (i : Int) (h : toSizeT i < v.length) :
    ∃ x, vecAt v i = some x ∧ v[toSizeT i]? = some x :=
  ⟨v[toSizeT i], List.getElem?_eq_getElem h, List.getElem?_eq_getElem h⟩

theorem matchingLoop_ok (d : AkazeData)
    (h : ∀ m ∈ d.matches_, toSizeT m.queryIdx < d.modelKeypoints.length ∧
      toSizeT m.trainIdx < d.sceneKeypoints.length) :
    ∀ (k i : Nat) (accM accS : List Point2f), i + k ≤ d.matches_.length →
      matchingLoop d k i accM accS =
        .ok (accM ++ ((d.matches_.drop i).take k).map (modelPt d),
             accS ++ ((d.matches_.drop i).take k).map (scenePt d)) := by
  intro k
  induction k with
  | zero => intro i accM accS _; simp [matchingLoop]
  | succ k ih =>
    intro i accM accS hik
    have hi : i < d.matches_.length := by omega
    obtain ⟨hq, ht⟩ := h d.matches_[i] (List.getElem_mem _)
    obtain ⟨kpM, hM, _⟩ := vecAt_of_range d.modelKeypoints _ hq
    obtain ⟨kpS, hS, _⟩ := vecAt_of_range d.sceneKeypoints _ ht
    rw [matchingLoop, List.getElem?_eq_getElem hi]
    simp only [hM, hS]
    rw [ih (i + 1) _ _ (by omega), drop_take_succ d.matches_ i k hi]
    simp [modelPt, scenePt, hM, hS]

theorem akazeFindObjectCorners_shape (L : Lib) (d d1 : AkazeData) (calls : List Event)
    (h : akazeFindObjectCorners L d = .ok (d1, calls)) :
    ∃ src dst,
      calls = [Event.findHomography src dst CV_RANSAC,
        Event.perspectiveTransform (modelCorners d.imgModel)
          (L.findHomography src dst CV_RANSAC)] ∧
      d1 = { d with foundObjectCorners :=
        (modelCorners d.imgModel).map (L.transformPoint (L.findHomography src dst CV_RANSAC)) } := by
  unfold akazeFindObjectCorners at h
  split at h
  · cases h
  · rename_i src dst _
    simp only [Except.ok.injEq, Prod.mk.injEq] at h
    exact ⟨src, dst, h.2.symm, h.1.symm⟩

/-- C5: for every `AkazeData` whose matches all satisfy
`queryIdx < modelKeypoints.size()` and `trainIdx < sceneKeypoints.size()` (the
comparisons of C++, in which the `int` index converts to `size_t`, as it does in
the read itself), `akazeFindObjectCorners` returns, `findHomography` is called
with the model points as source and the scene points as destination, both lists
have length `matches.size()`, and for every `i` the `i`-th model point is
`modelKeypoints[matches[i].queryIdx].pt` and the `i`-th scene point is
`sceneKeypoints[matches[i].trainIdx].pt`. -/
theorem akazeFindObjectCorners_correspondences (L : Lib) (d : AkazeData)
    (h : ∀ m ∈ d.matches_, toSizeT m.queryIdx < d.modelKeypoints.length ∧
      toSizeT m.trainIdx < d.sceneKeypoints.length) :
    ∃ src dst d1,
      akazeFindObjectCorners L d =
        .ok (d1, [Event.findHomography src dst CV_RANSAC,
          Event.perspectiveTransform (modelCorners d.imgModel)
            (L.findHomography src dst CV_RANSAC)]) ∧
      src.length = d.matches_.length ∧ dst.length = d.matches_.length ∧
      ∀ (i : Nat) (m : DMatch), d.matches_[i]? = some m →
        ∃ kpModel kpScene,
          d.modelKeypoints[toSizeT m.queryIdx]? = some kpModel ∧
          d.sceneKeypoints[toSizeT m.trainIdx]? = some kpScene ∧
          src[i]? = some kpModel.pt ∧ dst[i]? = some kpScene.pt := by
  have hloop := matchingLoop_ok d h d.matches_.length 0 [] [] (by omega)
  simp only [List.drop_zero, List.take_length, List.nil_append] at hloop
  have hrun : ∃ d1, akazeFindObjectCorners L d =
      .ok (d1, [Event.findHomography (d.matches_.map (modelPt d))
          (d.matches_.map (scenePt d)) CV_RANSAC,
        Event.perspectiveTransform (modelCorners d.imgModel)
          (L.findHomography (d.matches_.map (modelPt d))
            (d.matches_.map (scenePt d)) CV_RANSAC)]) := by
    simp only [akazeFindObjectCorners, hloop]
    exact ⟨_, rfl⟩
  obtain ⟨d1, hd1⟩ := hrun
  refine ⟨d.matches_.map (modelPt d), d.matches_.map (scenePt d), d1, hd1, ?_, ?_, ?_⟩
  · simp
  · simp
  · intro i m hm
    have hmem : m ∈ d.matches_ := List.getElem?_mem hm
    obtain ⟨hq, ht⟩ := h m hmem
    obtain ⟨kpM, hM, hM2⟩ := vecAt_of_range d.modelKeypoints _ hq
    obtain ⟨kpS, hS, hS2⟩ := vecAt_of_range d.sceneKeypoints _ ht
    refine ⟨kpM, kpS, hM2, hS2, ?_, ?_⟩
    · simp [List.getElem?_map, hm, modelPt, hM]
    · simp [List.getElem?_map, hm, scenePt, hS]

/-- C5 at `sampleData`: its two matches `(1, 0)` and `(0, 1)` are in range, and
the lists handed to `findHomography` are the points of model keypoints `1, 0`
and of scene keypoints `0, 1`. -/
theorem akazeFindObjectCorners_correspondences_witness :
    ∃ src dst d1,
      akazeFindObjectCorners sampleLib sampleData =
        .ok (d1, [Event.findHomography src dst CV_RANSAC,
          Event.perspectiveTransform (modelCorners sampleData.imgModel)
            (sampleLib.findHomography src dst CV_RANSAC)]) ∧
      src.length = sampleData.matches_.length ∧ dst.length = sampleData.matches_.length ∧
      ∀ (i : Nat) (m : DMatch), sampleData.matches_[i]? = some m →
        ∃ kpModel kpScene,
          sampleData.modelKeypoints[toSizeT m.queryIdx]? = some kpModel ∧
          sampleData.sceneKeypoints[toSizeT m.trainIdx]? = some kpScene ∧
          src[i]? = some kpModel.pt ∧ dst[i]? = some kpScene.pt :=
  akazeFindObjectCorners_correspondences sampleLib sampleData (by
    intro m hm
    simp only [sampleData, List.mem_cons, List.mem_singleton, List.not_mem_nil, or_false] at hm
    rcases hm with rfl | rfl <;> simp [sampleData, toSizeT])

theorem akazeFindGoodKeypointMatches_output (allMatches : List DMatch) (mat : Mat)
    (r : GoodMatches) (h : akazeFindGoodKeypointMatches allMatches mat = .ok r) :
    r.output = minMaxOutput r.minDistance r.maxDistance := by
  unfold akazeFindGoodKeypointMatches at h
  split at h
  · cases h
  · split at h
    · cases h
    · simp only [Except.ok.injEq] at h
      subst h
      rfl

theorem pipeline_starts (L : Lib) (imgModel imgScene : Mat) :
    Event.detectAndCompute imgModel ∈ (pipeline L imgModel imgScene).events := by
  unfold pipeline
  simp only []
  split
  · simp [akazeDetectComputeAndMatch]
  · split
    · simp [akazeDetectComputeAndMatch]
    · split <;> simp [akazeDetectComputeAndMatch]

theorem pipeline_returned (L : Lib) (imgModel imgScene : Mat) (d : AkazeData)
    (hd : (pipeline L imgModel imgScene).akazeData = some d)
    (hs : (pipeline L imgModel imgScene).status = Status.returned 0) :
    ∃ pre c d0 calls,
      (pipeline L imgModel imgScene).events =
        pre ++ drawLines c ++ [Event.imshow "imgMatches", Event.waitKey 0] ∧
      segments pre = [] ∧
      foundCorners L d imgModel = .ok c ∧
      akazeFindObjectCorners L d0 = .ok (d, calls) := by
  unfold pipeline at hd hs ⊢
  simp only [] at hd hs ⊢
  split at hs
  · cases hs
  · rename_i good hgood
    split at hs
    · cases hs
    · rename_i d1 calls hcalls
      split at hs
      · cases hs
      · rename_i c hc
        simp only [hgood, hcalls, hc, Option.some.injEq] at hd ⊢
        subst hd
        obtain ⟨src, dst, hshape, _⟩ := akazeFindObjectCorners_shape L _ _ _ hcalls
        refine ⟨_, c, _, calls, rfl, ?_, hc, hcalls⟩
        rw [akazeFindGoodKeypointMatches_output _ _ _ hgood, hshape]
        simp [segments, akazeDetectComputeAndMatch, minMaxOutput, Event.segment]

theorem main_returned (L : Lib) (d : AkazeData)
    (hd : (main L).akazeData = some d) (hs : (main L).status = Status.returned 0) :
    ∃ pre c d0 calls,
      (main L).events =
        pre ++ drawLines c ++ [Event.imshow "imgMatches", Event.waitKey 0] ∧
      segments pre = [] ∧
      foundCorners L d (L.imread "model_1.png" CV_LOAD_IMAGE_GRAYSCALE) = .ok c ∧
      akazeFindObjectCorners L d0 = .ok (d, calls) := by
  unfold main at hd hs ⊢
  simp only [] at hd hs ⊢
  split at hd
  · cases hd
  · split at hd
    · cases hd
    · rename_i hM hS
      simp only [hM, hS, if_false, Bool.false_eq_true] at hs ⊢
      obtain ⟨pre, c, d0, calls, hev, hpre, hc, hcalls⟩ := pipeline_returned L _ _ d hd hs
      refine ⟨[Event.imread "model_1.png" CV_LOAD_IMAGE_GRAYSCALE,
        Event.imread "scene_1.png" CV_LOAD_IMAGE_GRAYSCALE] ++ pre, c, d0, calls, ?_, ?_, hc,
        hcalls⟩
      · rw [hev]
        simp
      · simpa [segments, Event.segment] using hpre

theorem segments_main (L : Lib) (d : AkazeData)
    (hd : (main L).akazeData = some d) (hs : (main L).status = Status.returned 0) :
    ∃ c, foundCorners L d (L.imread "model_1.png" CV_LOAD_IMAGE_GRAYSCALE) = .ok c ∧
      (∃ d0 calls, akazeFindObjectCorners L d0 = .ok (d, calls)) ∧
      segments (main L).events =
        [(c.ptTopLeft, c.ptTopRight), (c.ptTopRight, c.ptBottomRight),
         (c.ptBottomRight, c.ptBottomLeft), (c.ptBottomLeft, c.ptTopLeft)] := by
  obtain ⟨pre, c, d0, calls, hev, hpre, hc, hcalls⟩ := main_returned L d hd hs
  refine ⟨c, hc, ⟨d0, calls, hcalls⟩, ?_⟩
  rw [hev]
  simp only [segments, List.filterMap_append] at hpre ⊢
  rw [hpre]
  simp [drawLines, Event.segment]

theorem scene_ne_model : ¬ ("scene_1.png" = "model_1.png") := by decide

theorem main_sampleLib :
    (main sampleLib).akazeData = some sampleFinalData ∧
    (main sampleLib).status = Status.returned 0 := by
  norm_num [main, pipeline, sampleLib, sampleFinalData, akazeDetectComputeAndMatch,
    akazeFindGoodKeypointMatches, minMaxLoop, goodLoop, akazeFindObjectCorners, matchingLoop,
    vecAt, toSizeT, modelCorners, foundCorners, cornerPoint, Point.toPoint2f,
    CV_LOAD_IMAGE_GRAYSCALE, scene_ne_model, roundBinary32_zero, roundBinary32_small]

/-- C3: if the model image read is empty, `main` reads only that image, prints
"error: model image not read from file", waits for a key and returns; if the
model image is non-empty and the scene image read is empty, it reads both,
prints "error: scene image not read from file", waits for a key and returns;
in neither case any detection, matching, filtering, homography, drawing or
display takes place, and such an event occurs exactly when both images are
non-empty. -/
theorem main_bails_out (L : Lib) :
    (L.empty (L.imread "model_1.png" CV_LOAD_IMAGE_GRAYSCALE) = true →
      main L =
        ⟨[Event.imread "model_1.png" CV_LOAD_IMAGE_GRAYSCALE,
          Event.print "error: model image not read from file\n\n", Event.getch],
         Status.returned 0, none⟩) ∧
    (L.empty (L.imread "model_1.png" CV_LOAD_IMAGE_GRAYSCALE) = false →
      L.empty (L.imread "scene_1.png" CV_LOAD_IMAGE_GRAYSCALE) = true →
      main L =
        ⟨[Event.imread "model_1.png" CV_LOAD_IMAGE_GRAYSCALE,
          Event.imread "scene_1.png" CV_LOAD_IMAGE_GRAYSCALE,
          Event.print "error: scene image not read from file\n\n", Event.getch],
         Status.returned 0, none⟩) ∧
    ((∃ e ∈ (main L).events, e.isPipeline = true) ↔
      (L.empty (L.imread "model_1.png" CV_LOAD_IMAGE_GRAYSCALE) = false ∧
       L.empty (L.imread "scene_1.png" CV_LOAD_IMAGE_GRAYSCALE) = false)) := by
  refine ⟨?_, ?_, ?_⟩
  · intro hM
    simp [main, hM]
  · intro hM hS
    simp [main, hM, hS]
  · cases hM : L.empty (L.imread "model_1.png" CV_LOAD_IMAGE_GRAYSCALE)
    · cases hS : L.empty (L.imread "scene_1.png" CV_LOAD_IMAGE_GRAYSCALE)
      · simp only [and_self, iff_true]
        refine ⟨Event.detectAndCompute (L.imread "model_1.png" CV_LOAD_IMAGE_GRAYSCALE), ?_, rfl⟩
        simp only [main, hM, hS, Bool.false_eq_true, if_false]
        exact List.mem_append_right _ (pipeline_starts L _ _)
      · simp [main, hM, hS, Event.isPipeline]
    · simp [main, hM, Event.isPipeline]

/-- The instances of C3 at `noModelLib` and at `noSceneLib`. -/
theorem main_bails_out_witness :
    main noModelLib =
      ⟨[Event.imread "model_1.png" CV_LOAD_IMAGE_GRAYSCALE,
        Event.print "error: model image not read from file\n\n", Event.getch],
       Status.returned 0, none⟩ ∧
    main noSceneLib =
      ⟨[Event.imread "model_1.png" CV_LOAD_IMAGE_GRAYSCALE,
        Event.imread "scene_1.png" CV_LOAD_IMAGE_GRAYSCALE,
        Event.print "error: scene image not read from file\n\n", Event.getch],
       Status.returned 0, none⟩ :=
  ⟨(main_bails_out noModelLib).1 (by simp [noModelLib, sampleLib]),
   (main_bails_out noSceneLib).2.1 (by simp [noSceneLib, sampleLib])
     (by simp [noSceneLib, sampleLib, scene_ne_model])⟩

theorem quadrilateral_closed (a b c d : Point) :
    ∀ (i : Nat) (s t : Point × Point),
      [(a, b), (b, c), (c, d), (d, a)][i]? = some s →
      [(a, b), (b, c), (c, d), (d, a)][(i + 1) % 4]? = some t → s.2 = t.1 := by
  intro i s t h1 h2
  rcases i with _ | _ | _ | _ | i
  · simp at h1 h2; subst h1 h2; rfl
  · simp at h1 h2; subst h1 h2; rfl
  · simp at h1 h2; subst h1 h2; rfl
  · simp at h1 h2; subst h1 h2; rfl
  · simp at h1

theorem quadrilateral_two_ends (a b c d : Point) (h : [a, b, c, d].Nodup) :
    ∀ p ∈ [a, b, c, d],
      ([(a, b), (b, c), (c, d), (d, a)].filter
        (fun s => decide (s.1 = p ∨ s.2 = p))).length = 2 := by
  simp only [List.nodup_cons, List.mem_cons, List.mem_singleton, List.not_mem_nil, or_false,
    not_or, List.nodup_nil, and_true, not_false_eq_true] at h
  obtain ⟨⟨hab, hac, had⟩, ⟨hbc, hbd⟩, hcd⟩ := h
  intro p hp
  simp only [List.mem_cons, List.mem_singleton, List.not_mem_nil, or_false] at hp
  have hba := Ne.symm hab
  have hca := Ne.symm hac
  have hda := Ne.symm had
  have hcb := Ne.symm hbc
  have hdb := Ne.symm hbd
  have hdc := Ne.symm hcd
  rcases hp with rfl | rfl | rfl | rfl <;>
    simp [List.filter, hab, hac, had, hbc, hbd, hcd, hba, hca, hda, hcb, hdb, hdc]

/-- C7: when `main` runs to its end, it draws exactly four segments, and they
are the closed path top-left, top-right, bottom-right, bottom-left, top-left
over its four corner points: every segment ends where the next one starts, the
last one ends where the first one starts, every corner is an end point of
exactly two segments, and no segment joins opposite corners.  When the four
pixel points are pairwise distinct, each of them is an end point of exactly
two of the drawn segments. -/
theorem main_quadrilateral (L : Lib) (d : AkazeData)
    (hd : (main L).akazeData = some d) (hs : (main L).status = Status.returned 0) :
    ∃ c : Corners,
      foundCorners L d (L.imread "model_1.png" CV_LOAD_IMAGE_GRAYSCALE) = .ok c ∧
      segments (main L).events = quadrilateral.map (fun s => (c.point s.1, c.point s.2)) ∧
      (segments (main L).events).length = 4 ∧
      (∀ (i : Nat) (s t : Point × Point),
        (segments (main L).events)[i]? = some s →
        (segments (main L).events)[(i + 1) % 4]? = some t → s.2 = t.1) ∧
      (∀ k : Corner,
        (quadrilateral.filter (fun s => decide (s.1 = k ∨ s.2 = k))).length = 2) ∧
      ((Corner.topLeft, Corner.bottomRight) ∉ quadrilateral ∧
       (Corner.bottomRight, Corner.topLeft) ∉ quadrilateral ∧
       (Corner.topRight, Corner.bottomLeft) ∉ quadrilateral ∧
       (Corner.bottomLeft, Corner.topRight) ∉ quadrilateral) ∧
      ([c.ptTopLeft, c.ptTopRight, c.ptBottomRight, c.ptBottomLeft].Nodup →
        ∀ p ∈ [c.ptTopLeft, c.ptTopRight, c.ptBottomRight, c.ptBottomLeft],
          ((segments (main L).events).filter
            (fun s => decide (s.1 = p ∨ s.2 = p))).length = 2) := by
  obtain ⟨c, hc, _, hseg⟩ := segments_main L d hd hs
  refine ⟨c, hc, ?_, ?_, ?_, ?_, ?_, ?_⟩
  · rw [hseg]
    rfl
  · rw [hseg]
    rfl
  · rw [hseg]
    exact quadrilateral_closed _ _ _ _
  · intro k
    cases k <;> rfl
  · decide
  · rw [hseg]
    exact quadrilateral_two_ends _ _ _ _

/-- C7 at `sampleLib`, whose run ends with `sampleFinalData`: the four segments
join the pairwise distinct pixels `(8,7)`, `(11,7)`, `(11,9)`, `(8,9)` in a
closed path, and each pixel is an end point of exactly two of them. -/
theorem main_quadrilateral_witness :
    segments (main sampleLib).events =
      [(⟨8, 7⟩, ⟨11, 7⟩), (⟨11, 7⟩, ⟨11, 9⟩), (⟨11, 9⟩, ⟨8, 9⟩), (⟨8, 9⟩, ⟨8, 7⟩)] ∧
    (∀ (i : Nat) (s t : Point × Point),
      (segments (main sampleLib).events)[i]? = some s →
      (segments (main sampleLib).events)[(i + 1) % 4]? = some t → s.2 = t.1) ∧
    (∀ p ∈ ([⟨8, 7⟩, ⟨11, 7⟩, ⟨11, 9⟩, ⟨8, 9⟩] : List Point),
      ((segments (main sampleLib).events).filter
        (fun s => decide (s.1 = p ∨ s.2 = p))).length = 2) := by
  obtain ⟨c, hc, hseg, _, hchain, _, _, hends⟩ :=
    main_quadrilateral sampleLib sampleFinalData main_sampleLib.1 main_sampleLib.2
  have hval : foundCorners sampleLib sampleFinalData
      (sampleLib.imread "model_1.png" CV_LOAD_IMAGE_GRAYSCALE) =
      .ok ⟨⟨8, 7⟩, ⟨11, 7⟩, ⟨11, 9⟩, ⟨8, 9⟩⟩ := by
    norm_num [foundCorners, cornerPoint, sampleLib, sampleFinalData, Point2f.toPoint,
      Point2f.add, Point2f.ofInts, roundBinary32_zero, roundBinary32_small]
  rw [hval] at hc
  simp only [Except.ok.injEq] at hc
  subst hc
  exact ⟨hseg, hchain, hends (by decide)⟩

end Keypoints
